import Mathlib

/-!
Verification of the self-healing code-modification workflow.

This file gives a shallow embedding of the core logic of the repository:

* `src/ai_assistant/healing.py` — `ErrorClassifier`, `SelfHealer.heal`
  (the bounded retry loop around the sandbox and the fix generator);
* `src/ai_assistant/analyzers.py` — `SpeedAnalyzer` (dependency-graph
  impact analysis) and `PrecisionAnalyzer` (LSP stub);
* `src/ai_assistant/agent.py` — the analysis-phase workflow nodes and the
  fallback routing function of the LangGraph state machine.

External collaborators (the sandbox `TestExecutor.execute` and the LLM
behind `_generate_fix`) are modelled as function parameters, exactly the
interface the Python code consumes.  Effects of the filesystem scan are
modelled with `Except` values, mirroring the `try/except` boundaries of
the source.  Logging calls and wall-clock timing fields are not modelled.
-/

/-! ## healing.py : data model -/

/-- `TestResult` dataclass of `healing.py`. -/
structure TestResult where
  success : Bool
  stdout : String
  stderr : String
  errors : List String
  returncode : Int
deriving DecidableEq

/-- `CodeHistory` dataclass of `healing.py` (one attempt record). -/
structure CodeHistory where
  attempt : Nat
  code : String
  fix_reason : Option String := none
  test_result : Option TestResult := none
deriving DecidableEq

/-- `HealingResult` dataclass of `healing.py`. -/
structure HealingResult where
  success : Bool
  final_code : String
  final_tests : String
  retry_count : Nat
  history : List CodeHistory := []
  error_logs : List String := []
deriving DecidableEq

/-! ## healing.py : ErrorClassifier -/

/-- `ErrorClassifier.ERROR_PATTERNS`: ordered as in the Python dict
(Python dicts preserve insertion order). -/
def ErrorClassifier.ERROR_PATTERNS : List (String × List String) :=
  [ ("syntax", ["SyntaxError", "IndentationError"]),
    ("import", ["ImportError", "ModuleNotFoundError"]),
    ("type", ["TypeError", "AttributeError", "NameError"]),
    ("logic", ["AssertionError"]),
    ("runtime", ["RuntimeError", "ValueError", "KeyError"]) ]

/-- ASCII lower-casing of a character code, used to model
`re.IGNORECASE` matching of the purely alphabetic patterns above. -/
def lowerNat (n : Nat) : Nat :=
  if 65 ≤ n ∧ n ≤ 90 then n + 32 else n

/-- Case-insensitive character comparison. -/
def charsEqCI (a b : Char) : Bool :=
  lowerNat a.toNat == lowerNat b.toNat

/-- Case-insensitive prefix test on character lists. -/
def isPrefixCI : List Char → List Char → Bool
  | [], _ => true
  | _ :: _, [] => false
  | a :: as, b :: bs => charsEqCI a b && isPrefixCI as bs

/-- Case-insensitive substring search on character lists. -/
def searchCI (pat : List Char) : List Char → Bool
  | [] => isPrefixCI pat []
  | c :: cs => isPrefixCI pat (c :: cs) || searchCI pat cs

/-- `re.search(pattern, msg, re.IGNORECASE)` for the literal (alphabetic,
metacharacter-free) patterns of `ERROR_PATTERNS`: a case-insensitive
substring test. -/
def reSearchCI (pat msg : String) : Bool :=
  searchCI pat.toList msg.toList

/-- `ErrorClassifier.classify`: walk the pattern table in order, record a
category as soon as one of its patterns matches (the inner `break`), then
`list(set(error_types)) or ["unknown"]`.  The appended list already holds
each category at most once, so `set` only forgets order; `List.dedup` is
one realisation of that unspecified order. -/
def ErrorClassifier.classify (error_message : String) : List String :=
  let error_types :=
    (ErrorClassifier.ERROR_PATTERNS.filter
      (fun p => p.2.any (fun pat => reSearchCI pat error_message))).map Prod.fst
  let result := error_types.dedup
  if result.isEmpty then ["unknown"] else result

/-! ## healing.py : SelfHealer.heal

`SelfHealer.heal` runs the sandbox once (attempt 0), then loops
`while retry_count < self.max_retries and not test_result.success`,
incrementing `retry_count` each iteration.  Since `retry_count` starts at
0 and rises by exactly 1 per iteration, the guard
`retry_count < max_retries` is equivalent to a countdown that starts at
`max_retries.toNat` (an `int` that may be negative; a non-positive bound
means the loop body never runs).  The countdown argument below encodes
exactly that guard, which also makes the definition structurally
recursive and executable. -/

/-- The `while` loop of `SelfHealer.heal`.  `exec` is the sandbox
collaborator (`TestExecutor.execute`), `generate_fix` the LLM-backed
`_generate_fix` with its argument order (code, tests, error_message,
error_types, original_request, attempt).  The Python
`', '.join(set(error_types))` iterates a set in unspecified order;
`List.dedup` realises one such order. -/
def SelfHealer.healLoop
    (exec : String → String → TestResult)
    (generate_fix : String → String → String → List String → String → Nat → String)
    (original_request tests : String) :
    Nat → Nat → String → TestResult → List CodeHistory → List String → HealingResult
  | 0, retry_count, code, _, history, error_logs =>
      { success := false, final_code := code, final_tests := tests,
        retry_count := retry_count, history := history, error_logs := error_logs }
  | remaining + 1, retry_count, code, tr, history, error_logs =>
      if tr.success then
        { success := false, final_code := code, final_tests := tests,
          retry_count := retry_count, history := history, error_logs := error_logs }
      else
        let rc := retry_count + 1
        let error_types :=
          tr.errors.foldl (fun acc err => acc ++ ErrorClassifier.classify err) []
        let error_summary :=
          "Attempt " ++ toString rc ++ ": " ++ String.intercalate ", " error_types.dedup
        let error_logs' := error_logs ++ [error_summary]
        let new_code := generate_fix code tests tr.stderr error_types original_request rc
        let tr' := exec new_code tests
        let history' := history ++
          [{ attempt := rc, code := new_code, fix_reason := some error_summary,
             test_result := some tr' }]
        if tr'.success then
          { success := true, final_code := new_code, final_tests := tests,
            retry_count := rc, history := history', error_logs := error_logs' }
        else
          SelfHealer.healLoop exec generate_fix original_request tests
            remaining rc new_code tr' history' error_logs'

/-- `SelfHealer.heal(code, tests, original_request)`.  `max_retries` is the
constructor field (a Python `int`, default 3). -/
def SelfHealer.heal (max_retries : Int)
    (exec : String → String → TestResult)
    (generate_fix : String → String → String → List String → String → Nat → String)
    (code tests original_request : String) : HealingResult :=
  let tr := exec code tests
  let history : List CodeHistory :=
    [{ attempt := 0, code := code, test_result := some tr }]
  if tr.success then
    { success := true, final_code := code, final_tests := tests,
      retry_count := 0, history := history, error_logs := [] }
  else
    SelfHealer.healLoop exec generate_fix original_request tests
      max_retries.toNat 0 code tr history []

/-! ## analyzers.py : data model -/

/-- One scanned workspace source file: its path relative to the workspace
root together with the dotted module names occurring in its `import` /
`from ... import` statements (what `_find_imports` extracts). -/
structure PyFile where
  path : String
  imports : List String
deriving DecidableEq

/-- The `networkx.DiGraph` built by `SpeedAnalyzer`: node and edge lists
kept duplicate-free, as `add_node` / `add_edge` are set-like. -/
structure DiGraph where
  nodes : List String := []
  edges : List (String × String) := []
deriving DecidableEq

/-- `graph.add_node(v)`: a no-op when the node is already present. -/
def DiGraph.add_node (g : DiGraph) (v : String) : DiGraph :=
  if v ∈ g.nodes then g else { g with nodes := g.nodes ++ [v] }

/-- `graph.add_edge(u, v)`: networkx inserts both endpoints as nodes and
ignores a duplicate edge. -/
def DiGraph.add_edge (g : DiGraph) (u v : String) : DiGraph :=
  let g' := (g.add_node u).add_node v
  if (u, v) ∈ g'.edges then g' else { g' with edges := g'.edges ++ [(u, v)] }

/-- `module_name.replace('.', '/') + '.py'` — the pattern is the single
character `'.'`, so the replacement is a character map. -/
def moduleToPath (module_name : String) : String :=
  String.mk (module_name.toList.map (fun c => if c = '.' then '/' else c)) ++ ".py"

/-- `module_name.replace('.', '/') + '/__init__.py'`. -/
def moduleToInitPath (module_name : String) : String :=
  String.mk (module_name.toList.map (fun c => if c = '.' then '/' else c)) ++ "/__init__.py"

/-- `SpeedAnalyzer._resolve_import_to_file`: try `pkg/mod.py`, then
`pkg/mod/__init__.py`; `None` when neither exists in the workspace.  The
filesystem existence test is modelled as membership in the scanned
workspace file list. -/
def resolve_import_to_file (workspace_paths : List String) (module_name : String) :
    Option String :=
  let possible_path := moduleToPath module_name
  if possible_path ∈ workspace_paths then some possible_path
  else
    let possible_init := moduleToInitPath module_name
    if possible_init ∈ workspace_paths then some possible_init else none

/-- `SpeedAnalyzer._extract_dependencies`: add the file as a node, then
for every resolvable import add a directed edge
`file → imported file` (this is the direction `add_edge(file_str,
possible_file)` actually inserts). -/
def extract_dependencies (workspace_paths : List String) (g : DiGraph) (f : PyFile) :
    DiGraph :=
  let g := g.add_node f.path
  f.imports.foldl
    (fun g m =>
      match resolve_import_to_file workspace_paths m with
      | some p => g.add_edge f.path p
      | none => g) g

/-- `SpeedAnalyzer._build_dependency_graph`: fold `_extract_dependencies`
over every scanned Python file. -/
def build_dependency_graph (files : List PyFile) : DiGraph :=
  files.foldl (extract_dependencies (files.map (·.path))) {}

/-- Bounded reachability along directed edges: `reachWithin edges n s t`
holds iff some forward path of at most `n` edges leads from `s` to `t`.
With `n ≥ |nodes|` this is exactly reachability, since a shortest path
repeats no node. -/
def reachWithin (edges : List (String × String)) : Nat → String → String → Bool
  | 0, s, t => s == t
  | n + 1, s, t =>
      s == t || edges.any (fun e => e.1 == s && reachWithin edges n e.2 t)

/-- `networkx.descendants(graph, s)`: every node reachable from `s` by
following edges forward, excluding `s` itself. -/
def DiGraph.descendants (g : DiGraph) (s : String) : List String :=
  g.nodes.filter (fun t => t != s && reachWithin g.edges g.nodes.length s t)

/-- Lexicographic comparison of character lists by code point — the order
Python's `sorted` uses on strings. -/
def charListLe : List Char → List Char → Bool
  | [], _ => true
  | _ :: _, [] => false
  | a :: as, b :: bs => if a < b then true else if b < a then false else charListLe as bs

/-- Python string comparison (`s1 <= s2`). -/
def stringLe (a b : String) : Bool :=
  charListLe a.toList b.toList

/-- `SpeedAnalyzer._find_impacted_files`: a changed file absent from the
graph degrades to the singleton; otherwise the changed file followed by
the sorted descendants. -/
def SpeedAnalyzer.find_impacted_files (g : DiGraph) (changed_file : String) :
    List String :=
  if changed_file ∈ g.nodes then
    changed_file ::
      ((g.descendants changed_file).insertionSort (fun a b => stringLe a b = true))
  else [changed_file]

/-- `AnalysisResult` dataclass of `analyzers.py` (`analysis_time` not
modelled). -/
structure AnalysisResult where
  impacted_files : List String
  mode_used : String
  error : Option String := none
  warnings : List String := []
deriving DecidableEq

/-- `SpeedAnalyzer.analyze`: the `try` block scans the workspace, builds
the graph and queries it; any exception inside the block is caught and
mapped to an empty impacted list with `error` set.  The effectful scan is
the fallible part and is passed in as an `Except` value. -/
def SpeedAnalyzer.analyze (scan : Except String (List PyFile)) (changed_file : String) :
    AnalysisResult :=
  match scan with
  | Except.ok files =>
      let g := build_dependency_graph files
      { impacted_files := SpeedAnalyzer.find_impacted_files g changed_file,
        mode_used := "SPEED" }
  | Except.error e =>
      { impacted_files := [], mode_used := "SPEED", error := some e }

/-- `PrecisionAnalyzer._simulate_lsp_analysis`: always just the changed
file. -/
def PrecisionAnalyzer.simulate_lsp_analysis (changed_file : String) : List String :=
  [changed_file]

/-- `PrecisionAnalyzer.analyze`.  Whether `pygls` is installed
(`LSP_AVAILABLE`) only changes logging in the source: the result is the
simulated stub either way, with a warnings entry and no error.  An
exception inside the `try` block would be mapped to the error result, but
the simulated body cannot raise. -/
def PrecisionAnalyzer.analyze (_lsp_available : Bool) (changed_file : String) :
    AnalysisResult :=
  { impacted_files := PrecisionAnalyzer.simulate_lsp_analysis changed_file,
    mode_used := "PRECISION",
    error := none,
    warnings := ["Using simulated LSP analysis. Full LSP integration pending."] }

/-! ## agent.py : analysis-phase state machine -/

/-- The `analysis_result` dict a node stores into the state.  Keys may be
absent in Python; an absent `should_fallback` key is falsy, hence the
`false` default. -/
structure AnalysisMeta where
  mode : Option String := none
  error : Option String := none
  should_fallback : Bool := false
  warnings : List String := []
deriving DecidableEq

/-- The fields of `AgentState` the analysis phase reads and writes
(`messages`, generation and doc-sync fields are owned by later stages). -/
structure AgentState where
  mode : String
  changed_file : String
  impacted_files : List String := []
  retry_count : Nat := 0
  error_logs : List String := []
  analysis_result : Option AnalysisMeta := none
deriving DecidableEq

/-- `route_by_mode`: the conditional entry point. -/
def route_by_mode (s : AgentState) : String :=
  if s.mode == "SPEED" then "speed_analysis"
  else if s.mode == "PRECISION" then "precision_analysis"
  else "speed_analysis"

/-- `speed_analysis_node` (with the analyzer modules importable): run the
fast analyzer and store its result; LangGraph merges the partial update,
leaving every other field — in particular `retry_count` — unchanged. -/
def speed_analysis_node (scan : Except String (List PyFile)) (s : AgentState) :
    AgentState :=
  let result := SpeedAnalyzer.analyze scan s.changed_file
  { s with
    impacted_files := result.impacted_files,
    analysis_result := some
      { mode := some result.mode_used, error := result.error,
        warnings := result.warnings } }

/-- `precision_analysis_node`.  `exc` injects an exception raised inside
the node's `try` block (`none` = normal execution): the `except` branch
and the `result.error` branch both store `should_fallback := true`; the
normal branch stores the analyzer result with no fallback signal. -/
def precision_analysis_node (lsp_available : Bool) (exc : Option String)
    (s : AgentState) : AgentState :=
  match exc with
  | some e =>
      { s with
        impacted_files := [],
        error_logs := s.error_logs ++ ["PRECISION analysis error: " ++ e],
        analysis_result := some { error := some e, should_fallback := true } }
  | none =>
      let result := PrecisionAnalyzer.analyze lsp_available s.changed_file
      match result.error with
      | some e =>
          { s with
            impacted_files := [],
            error_logs := s.error_logs ++ ["PRECISION error: " ++ e],
            analysis_result := some
              { mode := some "PRECISION", error := some e, should_fallback := true } }
      | none =>
          { s with
            impacted_files := result.impacted_files,
            analysis_result := some
              { mode := some result.mode_used, error := result.error,
                warnings := result.warnings } }

/-- `check_precision_fallback`: the conditional edge after the precision
node.  `state.get("analysis_result", {})` defaults to an empty dict whose
`should_fallback` lookup is falsy; a non-empty `impacted_files` list is
truthy. -/
def check_precision_fallback (s : AgentState) : String :=
  if (s.analysis_result.getD {}).should_fallback then "fallback_to_speed"
  else if s.impacted_files ≠ [] then "code_agent"
  else "end"

/-- The analysis phase of `create_self_healing_agent`, following its
wiring: the conditional entry point routes by mode; after the precision
node, `check_precision_fallback` may re-run the speed node in place of
the precision result (the other two routes leave the state as the
precision node produced it). -/
def analysis_phase (lsp_available : Bool) (precision_exc : Option String)
    (scan : Except String (List PyFile)) (s : AgentState) : AgentState :=
  match route_by_mode s with
  | "precision_analysis" =>
      let s' := precision_analysis_node lsp_available precision_exc s
      match check_precision_fallback s' with
      | "fallback_to_speed" => speed_analysis_node scan s'
      | _ => s'
  | _ => speed_analysis_node scan s

/-! ## Concrete inputs used by witnesses and counterexamples -/

/-- A sandbox collaborator whose executions always fail. -/
def sandboxAlwaysFail : String → String → TestResult :=
  fun _ _ => { success := false, stdout := "", stderr := "AssertionError: boom",
               errors := ["AssertionError: boom"], returncode := 1 }

/-- A concrete fix generator: appends the attempt number to the code. -/
def fixGenDemo : String → String → String → List String → String → Nat → String :=
  fun code _ _ _ _ attempt => code ++ "#" ++ toString attempt

/-- Scenario A of the spec: `a.py` imports nothing, `b.py` imports `a`,
`c.py` imports `b`. -/
def scenario_a : List PyFile :=
  [ { path := "a.py", imports := [] },
    { path := "b.py", imports := ["a"] },
    { path := "c.py", imports := ["b"] } ]

/-- A PRECISION-mode state entering the analysis phase. -/
def precisionDemoState : AgentState :=
  { mode := "PRECISION", changed_file := "m.py", retry_count := 5 }

/-- The same workspace as `scenario_a`, scanned in a different order. -/
def scenario_a_perm : List PyFile :=
  [ { path := "c.py", imports := ["b"] },
    { path := "a.py", imports := [] },
    { path := "b.py", imports := ["a"] } ]

/-! ## Theorems -/

/-- Claim C7: the fast analyzer's `analyze` never lets an exception past
its boundary — the embedding is a total function, and on any internal
failure (a scan that raises, modelled as `Except.error`) it returns an
`AnalysisResult` with an empty impacted list and the error message set,
instead of propagating the exception. -/
theorem speed_analyze_failure_contained (e changed_file : String) :
    (SpeedAnalyzer.analyze (Except.error e) changed_file).impacted_files = [] ∧
    (SpeedAnalyzer.analyze (Except.error e) changed_file).error = some e :=
  ⟨rfl, rfl⟩

/-- Claim C6: a changed file absent from the dependency graph degrades to
the singleton impacted list `[changed_file]`, with no error recorded (the
warning is only logged) and, the embedding being total, no exception. -/
theorem speed_analyze_missing_changed_file (files : List PyFile)
    (changed_file : String)
    (h : changed_file ∉ (build_dependency_graph files).nodes) :
    (SpeedAnalyzer.analyze (Except.ok files) changed_file).impacted_files
        = [changed_file] ∧
    (SpeedAnalyzer.analyze (Except.ok files) changed_file).error = none := by
  refine ⟨?_, rfl⟩
  simp [SpeedAnalyzer.analyze, SpeedAnalyzer.find_impacted_files, h]

/-- Witness for C6 at a concrete workspace: `new.py` was never scanned. -/
theorem speed_analyze_missing_changed_file_witness :
    (SpeedAnalyzer.analyze (Except.ok scenario_a) "new.py").impacted_files
        = ["new.py"] ∧
    (SpeedAnalyzer.analyze (Except.ok scenario_a) "new.py").error = none :=
  speed_analyze_missing_changed_file scenario_a "new.py" (by decide)

/-- Claim C2 (refuted — the code contradicts its own docstrings):
`_extract_dependencies` inserts the edge `importer → imported`, and
`_find_impacted_files` follows edges forward with `nx.descendants`, so on
the Scenario-A workspace analyzing `a.py` returns only `["a.py"]` — the
files `a.py` transitively imports, not the files that import it — while
analyzing `c.py` returns its dependencies `["c.py", "a.py", "b.py"]`.
The claim (and the source's own comments) expect `["a.py", "b.py",
"c.py"]` for `a.py`. -/
theorem scenario_a_impacted_follows_import_direction :
    (build_dependency_graph scenario_a).edges = [("b.py", "a.py"), ("c.py", "b.py")] ∧
    (SpeedAnalyzer.analyze (Except.ok scenario_a) "a.py").impacted_files = ["a.py"] ∧
    (SpeedAnalyzer.analyze (Except.ok scenario_a) "c.py").impacted_files
        = ["c.py", "a.py", "b.py"] := by
  decide

/-- Claim C10: `ErrorClassifier.classify` always returns a non-empty,
duplicate-free list of categories drawn from `syntax`, `import`, `type`,
`logic`, `runtime`, `unknown`; when no pattern of the table matches the
message it returns exactly `["unknown"]`. -/
theorem classify_nonempty_nodup_known_categories (msg : String) :
    ErrorClassifier.classify msg ≠ [] ∧
    (ErrorClassifier.classify msg).Nodup ∧
    (∀ c ∈ ErrorClassifier.classify msg,
      c ∈ ["syntax", "import", "type", "logic", "runtime", "unknown"]) ∧
    (ErrorClassifier.ERROR_PATTERNS.all
        (fun p => p.2.all (fun pat => !reSearchCI pat msg)) = true →
      ErrorClassifier.classify msg = ["unknown"]) := by
  refine ⟨?_, ?_, ?_, ?_⟩
  · simp only [ErrorClassifier.classify]
    split
    · simp
    · next hne =>
        intro hnil
        rw [hnil] at hne
        simp at hne
  · simp only [ErrorClassifier.classify]
    split
    · simp
    · exact List.nodup_dedup _
  · intro c hc
    simp only [ErrorClassifier.classify] at hc
    split at hc
    · simp only [List.mem_singleton] at hc
      subst hc
      simp
    · rw [List.mem_dedup] at hc
      simp only [List.mem_map, List.mem_filter] at hc
      obtain ⟨p, ⟨hp, -⟩, rfl⟩ := hc
      simp only [ErrorClassifier.ERROR_PATTERNS, List.mem_cons,
        List.not_mem_nil, or_false] at hp
      rcases hp with rfl | rfl | rfl | rfl | rfl <;> simp
  · intro hall
    have hfil : ErrorClassifier.ERROR_PATTERNS.filter
        (fun p => p.2.any (fun pat => reSearchCI pat msg)) = [] := by
      rw [List.filter_eq_nil_iff]
      intro p hp
      have hp2 := List.all_eq_true.mp hall p hp
      simp only [List.all_eq_true, Bool.not_eq_true'] at hp2
      simp only [List.any_eq_true, not_exists, not_and, Bool.not_eq_true]
      intro pat hpat
      exact hp2 pat hpat
    simp [ErrorClassifier.classify, hfil]

/-- Witness for C10: a message matching no pattern classifies as
`["unknown"]`, and a matching one yields a duplicate-free known list. -/
theorem classify_nonempty_nodup_known_categories_witness :
    ErrorClassifier.classify "everything is fine" = ["unknown"] :=
  (classify_nonempty_nodup_known_categories "everything is fine").2.2.2 (by decide)

/-- The retry counter grows by at most one per loop iteration, so it is
bounded by its start value plus the remaining iteration budget. -/
theorem healLoop_retry_count_le
    (exec : String → String → TestResult)
    (generate_fix : String → String → String → List String → String → Nat → String)
    (original_request tests : String) :
    ∀ (remaining retry_count : Nat) (code : String) (tr : TestResult)
      (history : List CodeHistory) (error_logs : List String),
      (SelfHealer.healLoop exec generate_fix original_request tests
          remaining retry_count code tr history error_logs).retry_count
        ≤ retry_count + remaining := by
  intro remaining
  induction remaining with
  | zero =>
      intro retry_count code tr history error_logs
      simp [SelfHealer.healLoop]
  | succ n ih =>
      intro retry_count code tr history error_logs
      simp only [SelfHealer.healLoop]
      split
      · simp
      · split
        · simp
        · exact le_trans (ih _ _ _ _ _) (by omega)

/-- Claim C1: for every `heal` call the returned `retry_count` lies
between 0 and `max_retries` whenever the configured ceiling is
non-negative, and a negative `max_retries` behaves as 0 — no healing
retry is performed. -/
theorem heal_retry_count_within_ceiling (max_retries : Int)
    (exec : String → String → TestResult)
    (generate_fix : String → String → String → List String → String → Nat → String)
    (code tests original_request : String) :
    (0 : Int) ≤ (SelfHealer.heal max_retries exec generate_fix
        code tests original_request).retry_count ∧
    (0 ≤ max_retries →
      ((SelfHealer.heal max_retries exec generate_fix
          code tests original_request).retry_count : Int) ≤ max_retries) ∧
    (max_retries < 0 →
      (SelfHealer.heal max_retries exec generate_fix
          code tests original_request).retry_count = 0) := by
  have key : (SelfHealer.heal max_retries exec generate_fix
      code tests original_request).retry_count ≤ max_retries.toNat := by
    simp only [SelfHealer.heal]
    split
    · simp
    · simpa using healLoop_retry_count_le exec generate_fix original_request tests
        max_retries.toNat 0 code _ _ _
  refine ⟨Int.ofNat_nonneg _, fun hnn => ?_, fun hneg => ?_⟩
  · calc ((SelfHealer.heal max_retries exec generate_fix
          code tests original_request).retry_count : Int)
        ≤ (max_retries.toNat : Int) := by exact_mod_cast key
      _ = max_retries := Int.toNat_of_nonneg hnn
  · have : max_retries.toNat = 0 := Int.toNat_of_nonpos (le_of_lt hneg)
    omega

/-- Witness for C1: with the default ceiling 3 the counter stays at most
3 against an always-failing sandbox, and a ceiling of -1 performs no
retry at all. -/
theorem heal_retry_count_within_ceiling_witness :
    ((SelfHealer.heal 3 sandboxAlwaysFail fixGenDemo "c" "t" "r").retry_count : Int)
        ≤ 3 ∧
    (SelfHealer.heal (-1) sandboxAlwaysFail fixGenDemo "c" "t" "r").retry_count = 0 :=
  ⟨(heal_retry_count_within_ceiling 3 sandboxAlwaysFail fixGenDemo
      "c" "t" "r").2.1 (by norm_num),
   (heal_retry_count_within_ceiling (-1) sandboxAlwaysFail fixGenDemo
      "c" "t" "r").2.2 (by norm_num)⟩

/-- Claim C4: against a sandbox that fails every execution, `heal` with
the default ceiling 3 returns failure, `retry_count = 3`, an attempt
history of length 4 (the initial attempt plus 3 retries) whose last entry
is attempt 3, and `final_code` equal to that last retry attempt's code —
not the attempt-0 code. -/
theorem heal_ceiling_exhaustion
    (exec : String → String → TestResult)
    (generate_fix : String → String → String → List String → String → Nat → String)
    (code tests original_request : String)
    (hfail : ∀ c t, (exec c t).success = false) :
    (SelfHealer.heal 3 exec generate_fix code tests original_request).success
        = false ∧
    (SelfHealer.heal 3 exec generate_fix code tests original_request).retry_count
        = 3 ∧
    (SelfHealer.heal 3 exec generate_fix
        code tests original_request).history.length = 4 ∧
    (SelfHealer.heal 3 exec generate_fix
        code tests original_request).history.getLast?.map CodeHistory.attempt
      = some 3 ∧
    (SelfHealer.heal 3 exec generate_fix
        code tests original_request).history.getLast?.map CodeHistory.code
      = some (SelfHealer.heal 3 exec generate_fix
          code tests original_request).final_code := by
  simp [SelfHealer.heal, SelfHealer.healLoop, hfail, Int.toNat_ofNat]

/-- Witness for C4 at the concrete always-failing sandbox. -/
theorem heal_ceiling_exhaustion_witness :
    (SelfHealer.heal 3 sandboxAlwaysFail fixGenDemo "c" "t" "r").success = false ∧
    (SelfHealer.heal 3 sandboxAlwaysFail fixGenDemo "c" "t" "r").retry_count = 3 ∧
    (SelfHealer.heal 3 sandboxAlwaysFail fixGenDemo "c" "t" "r").history.length
        = 4 ∧
    (SelfHealer.heal 3 sandboxAlwaysFail fixGenDemo
        "c" "t" "r").history.getLast?.map CodeHistory.attempt = some 3 ∧
    (SelfHealer.heal 3 sandboxAlwaysFail fixGenDemo
        "c" "t" "r").history.getLast?.map CodeHistory.code
      = some (SelfHealer.heal 3 sandboxAlwaysFail fixGenDemo "c" "t" "r").final_code :=
  heal_ceiling_exhaustion sandboxAlwaysFail fixGenDemo "c" "t" "r"
    (fun _ _ => rfl)

/-- Every execution the loop performs runs against the unmodified input
tests, and is recorded as such in the history. -/
theorem healLoop_tests_invariant
    (exec : String → String → TestResult)
    (generate_fix : String → String → String → List String → String → Nat → String)
    (original_request tests : String) :
    ∀ (remaining retry_count : Nat) (code : String) (tr : TestResult)
      (history : List CodeHistory) (error_logs : List String),
      (∀ h ∈ history, h.test_result = some (exec h.code tests)) →
      (SelfHealer.healLoop exec generate_fix original_request tests
          remaining retry_count code tr history error_logs).final_tests = tests ∧
      ∀ h ∈ (SelfHealer.healLoop exec generate_fix original_request tests
          remaining retry_count code tr history error_logs).history,
        h.test_result = some (exec h.code tests) := by
  intro remaining
  induction remaining with
  | zero =>
      intro retry_count code tr history error_logs hhist
      exact ⟨rfl, hhist⟩
  | succ n ih =>
      intro retry_count code tr history error_logs hhist
      simp only [SelfHealer.healLoop]
      split
      · exact ⟨rfl, hhist⟩
      · split
        · refine ⟨rfl, ?_⟩
          intro h hmem
          rcases List.mem_append.mp hmem with hmem | hmem
          · exact hhist h hmem
          · rcases List.mem_singleton.mp hmem with rfl
            rfl
        · apply ih
          intro h hmem
          rcases List.mem_append.mp hmem with hmem | hmem
          · exact hhist h hmem
          · rcases List.mem_singleton.mp hmem with rfl
            rfl

/-- Claim C8: `heal` never modifies the tests — the returned
`final_tests` is the input `tests` string unchanged, and every recorded
sandbox execution (the initial attempt and every retry) ran against
exactly those tests. -/
theorem heal_tests_unmodified (max_retries : Int)
    (exec : String → String → TestResult)
    (generate_fix : String → String → String → List String → String → Nat → String)
    (code tests original_request : String) :
    (SelfHealer.heal max_retries exec generate_fix
        code tests original_request).final_tests = tests ∧
    (SelfHealer.heal max_retries exec generate_fix
        code tests original_request).history.all
      (fun h => h.test_result == some (exec h.code tests)) = true := by
  have base : ∀ h ∈ ([⟨0, code, none, some (exec code tests)⟩] : List CodeHistory),
      h.test_result = some (exec h.code tests) := by
    intro h hmem
    rcases List.mem_singleton.mp hmem with rfl
    rfl
  have main : (SelfHealer.heal max_retries exec generate_fix
        code tests original_request).final_tests = tests ∧
      ∀ h ∈ (SelfHealer.heal max_retries exec generate_fix
          code tests original_request).history,
        h.test_result = some (exec h.code tests) := by
    simp only [SelfHealer.heal]
    split
    · exact ⟨rfl, base⟩
    · exact healLoop_tests_invariant exec generate_fix original_request tests
        max_retries.toNat 0 code _ _ _ base
  refine ⟨main.1, ?_⟩
  rw [List.all_eq_true]
  intro h hmem
  exact beq_iff_eq.mpr (main.2 h hmem)

/-- Claim C3 counterexample: with the LSP library not installed
(`LSP_AVAILABLE = false`) and no runtime exception, the precision
analyzer returns the silently degraded stub `[changed_file]` with NO
`error` set, and the precision node signals no fallback — refuting, at
this concrete input, the claim that unavailability of the reference
service always sets `errorMessage` and `shouldFallback`. -/
theorem precision_unavailable_no_signal_counterexample :
    (PrecisionAnalyzer.analyze false "m.py").error = none ∧
    (PrecisionAnalyzer.analyze false "m.py").impacted_files = ["m.py"] ∧
    ((precision_analysis_node false none
        precisionDemoState).analysis_result.getD {}).should_fallback = false ∧
    ((precision_analysis_node false none
        precisionDemoState).analysis_result.getD {}).error = none := by
  decide

/-- Claim C3 as amended: `errorMessage` and `shouldFallback` are set
exactly when the precision node's `try` block raises (the only way
`result.error` can be populated); when the reference service is merely
not installed, the analyzer deliberately returns the simulated
`[changed_file]` stub with a non-empty `warnings` entry, no error and no
fallback signal. -/
theorem precision_fallback_amended (lsp_available : Bool) (exc_msg : String)
    (s : AgentState) :
    (((precision_analysis_node lsp_available (some exc_msg) s).analysis_result.getD
        {}).should_fallback = true ∧
      ((precision_analysis_node lsp_available (some exc_msg) s).analysis_result.getD
        {}).error = some exc_msg ∧
      (precision_analysis_node lsp_available (some exc_msg) s).impacted_files = []) ∧
    ((precision_analysis_node lsp_available none s).impacted_files
        = [s.changed_file] ∧
      ((precision_analysis_node lsp_available none s).analysis_result.getD
        {}).error = none ∧
      ((precision_analysis_node lsp_available none s).analysis_result.getD
        {}).warnings ≠ [] ∧
      ((precision_analysis_node lsp_available none s).analysis_result.getD
        {}).should_fallback = false) := by
  refine ⟨⟨rfl, rfl, rfl⟩, ?_, rfl, ?_, rfl⟩
  · simp [precision_analysis_node, PrecisionAnalyzer.analyze,
      PrecisionAnalyzer.simulate_lsp_analysis]
  · simp [precision_analysis_node, PrecisionAnalyzer.analyze]

/-- Witness for the amended C3 at concrete inputs. -/
theorem precision_fallback_amended_witness :
    ((precision_analysis_node false (some "LSP down")
        precisionDemoState).analysis_result.getD {}).should_fallback = true ∧
    ((precision_analysis_node false none
        precisionDemoState).analysis_result.getD {}).warnings ≠ [] :=
  ⟨(precision_fallback_amended false "LSP down" precisionDemoState).1.1,
   (precision_fallback_amended false "LSP down" precisionDemoState).2.2.2.1⟩

/-- Claim C5: `check_precision_fallback` is a pure routing function —
fallback signalled routes to the fast analysis, otherwise non-empty
impacted files route to code generation, otherwise to the terminal
state — and when the precision node errors in PRECISION mode, the
analysis phase substitutes the fast strategy: the final analysis
metadata records the SPEED strategy and `retry_count` is unchanged. -/
theorem check_fallback_routes_and_fast_substitution
    (s : AgentState) (lsp_available : Bool) (e : String)
    (scan : Except String (List PyFile)) :
    ((s.analysis_result.getD {}).should_fallback = true →
        check_precision_fallback s = "fallback_to_speed") ∧
    ((s.analysis_result.getD {}).should_fallback = false → s.impacted_files ≠ [] →
        check_precision_fallback s = "code_agent") ∧
    ((s.analysis_result.getD {}).should_fallback = false → s.impacted_files = [] →
        check_precision_fallback s = "end") ∧
    (s.mode = "PRECISION" →
      ((analysis_phase lsp_available (some e) scan s).analysis_result.getD {}).mode
          = some "SPEED" ∧
      (analysis_phase lsp_available (some e) scan s).retry_count = s.retry_count) := by
  refine ⟨?_, ?_, ?_, ?_⟩
  · intro h
    simp [check_precision_fallback, h]
  · intro h hne
    simp [check_precision_fallback, h, hne]
  · intro h hnil
    simp [check_precision_fallback, h, hnil]
  · intro hm
    cases scan with
    | ok files =>
        constructor <;>
          simp [analysis_phase, route_by_mode, hm, precision_analysis_node,
            check_precision_fallback, speed_analysis_node, SpeedAnalyzer.analyze]
    | error err =>
        constructor <;>
          simp [analysis_phase, route_by_mode, hm, precision_analysis_node,
            check_precision_fallback, speed_analysis_node, SpeedAnalyzer.analyze]

/-- Witness for C5: a PRECISION-mode state with an always-erroring
precision analyzer ends the analysis phase with SPEED metadata and its
retry counter (5) untouched. -/
theorem check_fallback_routes_witness :
    ((analysis_phase true (some "boom") (Except.ok scenario_a)
        precisionDemoState).analysis_result.getD {}).mode = some "SPEED" ∧
    (analysis_phase true (some "boom") (Except.ok scenario_a)
        precisionDemoState).retry_count = precisionDemoState.retry_count ∧
    check_precision_fallback precisionDemoState = "end" :=
  ⟨((check_fallback_routes_and_fast_substitution precisionDemoState true "boom"
      (Except.ok scenario_a)).2.2.2 rfl).1,
   ((check_fallback_routes_and_fast_substitution precisionDemoState true "boom"
      (Except.ok scenario_a)).2.2.2 rfl).2,
   (check_fallback_routes_and_fast_substitution precisionDemoState true "boom"
      (Except.ok scenario_a)).2.2.1 (by decide) (by decide)⟩

/-- The code-point order on character lists is total. -/
theorem charListLe_total : ∀ (as bs : List Char),
    charListLe as bs = true ∨ charListLe bs as = true
  | [], _ => Or.inl rfl
  | _ :: _, [] => Or.inr rfl
  | a :: as, b :: bs => by
      rcases lt_trichotomy a b with h | rfl | h
      · left
        simp [charListLe, h]
      · rcases charListLe_total as bs with ih | ih
        · left
          simp [charListLe, lt_self_iff_false, ih]
        · right
          simp [charListLe, lt_self_iff_false, ih]
      · right
        simp [charListLe, h]

/-- The code-point order on character lists is transitive. -/
theorem charListLe_trans : ∀ (as bs cs : List Char),
    charListLe as bs = true → charListLe bs cs = true → charListLe as cs = true
  | [], _, _, _, _ => rfl
  | _ :: _, [], _, h1, _ => by simp [charListLe] at h1
  | _ :: _, _ :: _, [], _, h2 => by simp [charListLe] at h2
  | a :: as, b :: bs, c :: cs, h1, h2 => by
      rcases lt_trichotomy a b with hab | rfl | hab
      · rcases lt_trichotomy b c with hbc | rfl | hbc
        · simp [charListLe, lt_trans hab hbc]
        · simp [charListLe, hab]
        · simp [charListLe, lt_asymm hbc, hbc] at h2
      · rcases lt_trichotomy a c with hac | rfl | hac
        · simp [charListLe, hac]
        · simp only [charListLe, lt_self_iff_false, if_false] at h1 h2 ⊢
          exact charListLe_trans as bs cs h1 h2
        · simp [charListLe, lt_asymm hac, hac] at h2
      · simp [charListLe, lt_asymm hab, hab] at h1

/-- The code-point order on character lists is antisymmetric. -/
theorem charListLe_antisymm : ∀ (as bs : List Char),
    charListLe as bs = true → charListLe bs as = true → as = bs
  | [], [], _, _ => rfl
  | [], _ :: _, _, h2 => by simp [charListLe] at h2
  | _ :: _, [], h1, _ => by simp [charListLe] at h1
  | a :: as, b :: bs, h1, h2 => by
      rcases lt_trichotomy a b with hab | rfl | hab
      · simp [charListLe, lt_asymm hab, hab] at h2
      · simp only [charListLe, lt_self_iff_false, if_false] at h1 h2
        rw [charListLe_antisymm as bs h1 h2]
      · simp [charListLe, lt_asymm hab, hab] at h1

/-- Bounded reachability only depends on the set of edges, not on their
insertion order. -/
theorem reachWithin_perm {e₁ e₂ : List (String × String)} (hp : e₁.Perm e₂) :
    ∀ (n : Nat) (s t : String), reachWithin e₁ n s t = reachWithin e₂ n s t := by
  intro n
  induction n with
  | zero => intro s t; rfl
  | succ k ih =>
      intro s t
      have hany : (e₁.any fun e => e.1 == s && reachWithin e₁ k e.2 t)
          = (e₂.any fun e => e.1 == s && reachWithin e₂ k e.2 t) := by
        rw [Bool.eq_iff_iff]
        simp only [List.any_eq_true]
        constructor
        · rintro ⟨e, he, hh⟩
          refine ⟨e, hp.mem_iff.mp he, ?_⟩
          rw [← ih]
          exact hh
        · rintro ⟨e, he, hh⟩
          refine ⟨e, hp.mem_iff.mpr he, ?_⟩
          rw [ih]
          exact hh
      simp only [reachWithin, hany]

/-- `descendants` of two graphs holding the same node and edge sets are
permutations of each other. -/
theorem descendants_perm {g₁ g₂ : DiGraph} (hn : g₁.nodes.Perm g₂.nodes)
    (he : g₁.edges.Perm g₂.edges) (s : String) :
    (g₁.descendants s).Perm (g₂.descendants s) := by
  unfold DiGraph.descendants
  have hcongr : g₁.nodes.filter
        (fun t => t != s && reachWithin g₁.edges g₁.nodes.length s t)
      = g₁.nodes.filter
        (fun t => t != s && reachWithin g₂.edges g₂.nodes.length s t) := by
    apply List.filter_congr
    intro t _
    rw [reachWithin_perm he, hn.length_eq]
  rw [hcongr]
  exact hn.filter _

/-- Sorting with the Python string order sends permuted inputs to the
same output list. -/
theorem insertionSort_stringLe_perm_eq {l₁ l₂ : List String} (h : l₁.Perm l₂) :
    l₁.insertionSort (fun a b => stringLe a b = true)
      = l₂.insertionSort (fun a b => stringLe a b = true) := by
  haveI : IsTotal String (fun a b => stringLe a b = true) :=
    ⟨fun a b => charListLe_total a.toList b.toList⟩
  haveI : IsTrans String (fun a b => stringLe a b = true) :=
    ⟨fun a b c => charListLe_trans a.toList b.toList c.toList⟩
  haveI : IsAntisymm String (fun a b => stringLe a b = true) :=
    ⟨fun a b h1 h2 => String.toList_inj.mp (charListLe_antisymm _ _ h1 h2)⟩
  refine List.eq_of_perm_of_sorted ?_ (List.sorted_insertionSort _ l₁)
    (List.sorted_insertionSort _ l₂)
  exact ((List.perm_insertionSort _ l₁).trans h).trans
    (List.perm_insertionSort _ l₂).symm

/-- Node membership after `add_node`. -/
theorem mem_add_node_nodes (g : DiGraph) (v x : String) :
    x ∈ (g.add_node v).nodes ↔ x ∈ g.nodes ∨ x = v := by
  simp only [DiGraph.add_node]
  split
  · next h =>
      constructor
      · exact Or.inl
      · rintro (hx | rfl)
        · exact hx
        · exact h
  · simp [List.mem_append]

/-- `add_node` does not touch edges. -/
theorem add_node_edges (g : DiGraph) (v : String) :
    (g.add_node v).edges = g.edges := by
  simp only [DiGraph.add_node]
  split <;> rfl

/-- `add_node` preserves a duplicate-free node list. -/
theorem add_node_nodes_nodup (g : DiGraph) (v : String) (h : g.nodes.Nodup) :
    (g.add_node v).nodes.Nodup := by
  simp only [DiGraph.add_node]
  split
  · exact h
  · next hv =>
      rw [List.nodup_append]
      exact ⟨h, List.nodup_singleton _,
        fun a ha hmem => hv ((List.mem_singleton.mp hmem) ▸ ha)⟩

/-- The nodes inserted by `add_edge` are the two endpoints. -/
theorem add_edge_nodes (g : DiGraph) (u v : String) :
    (g.add_edge u v).nodes = ((g.add_node u).add_node v).nodes := by
  simp only [DiGraph.add_edge]
  split <;> rfl

/-- Node membership after `add_edge`. -/
theorem mem_add_edge_nodes (g : DiGraph) (u v x : String) :
    x ∈ (g.add_edge u v).nodes ↔ x ∈ g.nodes ∨ x = u ∨ x = v := by
  rw [add_edge_nodes, mem_add_node_nodes, mem_add_node_nodes, or_assoc]

/-- Edge membership after `add_edge`. -/
theorem mem_add_edge_edges (g : DiGraph) (u v : String) (e : String × String) :
    e ∈ (g.add_edge u v).edges ↔ e ∈ g.edges ∨ e = (u, v) := by
  simp only [DiGraph.add_edge, add_node_edges]
  split
  · next h =>
      rw [add_node_edges, add_node_edges]
      constructor
      · exact Or.inl
      · rintro (hx | rfl)
        · exact hx
        · exact h
  · simp [add_node_edges, List.mem_append]

/-- `add_edge` preserves a duplicate-free node list. -/
theorem add_edge_nodes_nodup (g : DiGraph) (u v : String) (h : g.nodes.Nodup) :
    (g.add_edge u v).nodes.Nodup := by
  rw [add_edge_nodes]
  exact add_node_nodes_nodup _ _ (add_node_nodes_nodup _ _ h)

/-- `add_edge` preserves a duplicate-free edge list. -/
theorem add_edge_edges_nodup (g : DiGraph) (u v : String) (h : g.edges.Nodup) :
    (g.add_edge u v).edges.Nodup := by
  simp only [DiGraph.add_edge, add_node_edges]
  split
  · next hmem => simpa [add_node_edges] using h
  · next hmem =>
      show (g.edges ++ [(u, v)]).Nodup
      rw [List.nodup_append]
      exact ⟨h, List.nodup_singleton _,
        fun a ha hmem' => hmem ((List.mem_singleton.mp hmem') ▸ ha)⟩

/-- Node membership after folding the import list of one file: beyond the
accumulator's nodes (which already hold the file's own path), exactly the
resolved import targets appear. -/
theorem extract_loop_nodes_mem (ap : List String) (fp : String) :
    ∀ (ms : List String) (g : DiGraph) (x : String), fp ∈ g.nodes →
      (x ∈ (ms.foldl (fun g m =>
          match resolve_import_to_file ap m with
          | some p => g.add_edge fp p
          | none => g) g).nodes ↔
        x ∈ g.nodes ∨ ∃ m ∈ ms, resolve_import_to_file ap m = some x) := by
  intro ms
  induction ms with
  | nil =>
      intro g x _
      simp
  | cons m ms ih =>
      intro g x hfp
      simp only [List.foldl_cons]
      cases hr : resolve_import_to_file ap m with
      | none =>
          rw [ih g x hfp]
          simp [hr]
      | some p =>
          rw [ih _ x (by rw [mem_add_edge_nodes]; exact Or.inr (Or.inl rfl))]
          rw [mem_add_edge_nodes]
          constructor
          · rintro ((hx | rfl | rfl) | ⟨m', hm', hr'⟩)
            · exact Or.inl hx
            · exact Or.inl hfp
            · exact Or.inr ⟨m, List.mem_cons_self m ms, hr⟩
            · exact Or.inr ⟨m', List.mem_cons_of_mem _ hm', hr'⟩
          · rintro (hx | ⟨m', hm', hr'⟩)
            · exact Or.inl (Or.inl hx)
            · rcases List.mem_cons.mp hm' with rfl | hm'
              · rw [hr] at hr'
                cases hr'
                exact Or.inl (Or.inr (Or.inr rfl))
              · exact Or.inr ⟨m', hm', hr'⟩

/-- Edge membership after folding the import list of one file. -/
theorem extract_loop_edges_mem (ap : List String) (fp : String) :
    ∀ (ms : List String) (g : DiGraph) (e : String × String),
      e ∈ (ms.foldl (fun g m =>
          match resolve_import_to_file ap m with
          | some p => g.add_edge fp p
          | none => g) g).edges ↔
        e ∈ g.edges ∨ ∃ m ∈ ms, ∃ p,
          resolve_import_to_file ap m = some p ∧ e = (fp, p) := by
  intro ms
  induction ms with
  | nil =>
      intro g e
      simp
  | cons m ms ih =>
      intro g e
      simp only [List.foldl_cons]
      cases hr : resolve_import_to_file ap m with
      | none =>
          rw [ih g e]
          simp [hr]
      | some p =>
          rw [ih _ e, mem_add_edge_edges]
          constructor
          · rintro ((he | rfl) | ⟨m', hm', p', hr', rfl⟩)
            · exact Or.inl he
            · exact Or.inr ⟨m, List.mem_cons_self m ms, p, hr, rfl⟩
            · exact Or.inr ⟨m', List.mem_cons_of_mem _ hm', p', hr', rfl⟩
          · rintro (he | ⟨m', hm', p', hr', rfl⟩)
            · exact Or.inl (Or.inl he)
            · rcases List.mem_cons.mp hm' with rfl | hm'
              · rw [hr] at hr'
                cases hr'
                exact Or.inl (Or.inr rfl)
              · exact Or.inr ⟨m', hm', p', hr', rfl⟩

/-- The import fold keeps the node list duplicate-free. -/
theorem extract_loop_nodes_nodup (ap : List String) (fp : String) :
    ∀ (ms : List String) (g : DiGraph), g.nodes.Nodup →
      (ms.foldl (fun g m =>
          match resolve_import_to_file ap m with
          | some p => g.add_edge fp p
          | none => g) g).nodes.Nodup := by
  intro ms
  induction ms with
  | nil =>
      intro g hg
      exact hg
  | cons m ms ih =>
      intro g hg
      simp only [List.foldl_cons]
      cases resolve_import_to_file ap m with
      | none => exact ih g hg
      | some p => exact ih _ (add_edge_nodes_nodup _ _ _ hg)

/-- The import fold keeps the edge list duplicate-free. -/
theorem extract_loop_edges_nodup (ap : List String) (fp : String) :
    ∀ (ms : List String) (g : DiGraph), g.edges.Nodup →
      (ms.foldl (fun g m =>
          match resolve_import_to_file ap m with
          | some p => g.add_edge fp p
          | none => g) g).edges.Nodup := by
  intro ms
  induction ms with
  | nil =>
      intro g hg
      exact hg
  | cons m ms ih =>
      intro g hg
      simp only [List.foldl_cons]
      cases resolve_import_to_file ap m with
      | none => exact ih g hg
      | some p => exact ih _ (add_edge_edges_nodup _ _ _ hg)

/-- Node membership after processing one file. -/
theorem extract_dependencies_nodes_mem (ap : List String) (g : DiGraph)
    (f : PyFile) (x : String) :
    x ∈ (extract_dependencies ap g f).nodes ↔
      x ∈ g.nodes ∨ x = f.path ∨
        ∃ m ∈ f.imports, resolve_import_to_file ap m = some x := by
  simp only [extract_dependencies]
  rw [extract_loop_nodes_mem ap f.path f.imports _ x
    (by rw [mem_add_node_nodes]; exact Or.inr rfl)]
  rw [mem_add_node_nodes]
  tauto

/-- Edge membership after processing one file. -/
theorem extract_dependencies_edges_mem (ap : List String) (g : DiGraph)
    (f : PyFile) (e : String × String) :
    e ∈ (extract_dependencies ap g f).edges ↔
      e ∈ g.edges ∨ ∃ m ∈ f.imports, ∃ p,
        resolve_import_to_file ap m = some p ∧ e = (f.path, p) := by
  simp only [extract_dependencies]
  rw [extract_loop_edges_mem, add_node_edges]

/-- Processing one file keeps the node list duplicate-free. -/
theorem extract_dependencies_nodes_nodup (ap : List String) (g : DiGraph)
    (f : PyFile) (hg : g.nodes.Nodup) :
    (extract_dependencies ap g f).nodes.Nodup := by
  simp only [extract_dependencies]
  exact extract_loop_nodes_nodup ap f.path f.imports _
    (add_node_nodes_nodup _ _ hg)

/-- Processing one file keeps the edge list duplicate-free. -/
theorem extract_dependencies_edges_nodup (ap : List String) (g : DiGraph)
    (f : PyFile) (hg : g.edges.Nodup) :
    (extract_dependencies ap g f).edges.Nodup := by
  simp only [extract_dependencies]
  apply extract_loop_edges_nodup
  rw [add_node_edges]
  exact hg

/-- Node membership after folding a list of files. -/
theorem build_loop_nodes_mem (ap : List String) :
    ∀ (files : List PyFile) (g : DiGraph) (x : String),
      x ∈ (files.foldl (extract_dependencies ap) g).nodes ↔
        x ∈ g.nodes ∨ ∃ f ∈ files, x = f.path ∨
          ∃ m ∈ f.imports, resolve_import_to_file ap m = some x := by
  intro files
  induction files with
  | nil =>
      intro g x
      simp
  | cons f files ih =>
      intro g x
      simp only [List.foldl_cons]
      rw [ih, extract_dependencies_nodes_mem]
      simp only [List.exists_mem_cons_iff]
      rw [or_assoc]

/-- Edge membership after folding a list of files. -/
theorem build_loop_edges_mem (ap : List String) :
    ∀ (files : List PyFile) (g : DiGraph) (e : String × String),
      e ∈ (files.foldl (extract_dependencies ap) g).edges ↔
        e ∈ g.edges ∨ ∃ f ∈ files, ∃ m ∈ f.imports, ∃ p,
          resolve_import_to_file ap m = some p ∧ e = (f.path, p) := by
  intro files
  induction files with
  | nil =>
      intro g e
      simp
  | cons f files ih =>
      intro g e
      simp only [List.foldl_cons]
      rw [ih, extract_dependencies_edges_mem]
      simp only [List.exists_mem_cons_iff]
      rw [or_assoc]

/-- Folding files keeps the node list duplicate-free. -/
theorem build_loop_nodes_nodup (ap : List String) :
    ∀ (files : List PyFile) (g : DiGraph), g.nodes.Nodup →
      (files.foldl (extract_dependencies ap) g).nodes.Nodup := by
  intro files
  induction files with
  | nil =>
      intro g hg
      exact hg
  | cons f files ih =>
      intro g hg
      simp only [List.foldl_cons]
      exact ih _ (extract_dependencies_nodes_nodup _ _ _ hg)

/-- Folding files keeps the edge list duplicate-free. -/
theorem build_loop_edges_nodup (ap : List String) :
    ∀ (files : List PyFile) (g : DiGraph), g.edges.Nodup →
      (files.foldl (extract_dependencies ap) g).edges.Nodup := by
  intro files
  induction files with
  | nil =>
      intro g hg
      exact hg
  | cons f files ih =>
      intro g hg
      simp only [List.foldl_cons]
      exact ih _ (extract_dependencies_edges_nodup _ _ _ hg)

/-- The built graph has duplicate-free nodes. -/
theorem build_nodes_nodup (files : List PyFile) :
    (build_dependency_graph files).nodes.Nodup :=
  build_loop_nodes_nodup _ files {} List.nodup_nil

/-- The built graph has duplicate-free edges. -/
theorem build_edges_nodup (files : List PyFile) :
    (build_dependency_graph files).edges.Nodup :=
  build_loop_edges_nodup _ files {} List.nodup_nil

/-- Import resolution only consults the workspace path list through
membership, so any reordering of the scan leaves it unchanged. -/
theorem resolve_import_perm {ap₁ ap₂ : List String} (hp : ap₁.Perm ap₂)
    (m : String) :
    resolve_import_to_file ap₁ m = resolve_import_to_file ap₂ m := by
  simp only [resolve_import_to_file]
  by_cases h1 : moduleToPath m ∈ ap₁
  · rw [if_pos h1, if_pos (hp.mem_iff.mp h1)]
  · rw [if_neg h1, if_neg (fun hc => h1 (hp.mem_iff.mpr hc))]
    by_cases h2 : moduleToInitPath m ∈ ap₁
    · rw [if_pos h2, if_pos (hp.mem_iff.mp h2)]
    · rw [if_neg h2, if_neg (fun hc => h2 (hp.mem_iff.mpr hc))]

/-- Node membership in the built graph: scanned paths and resolved import
targets. -/
theorem build_nodes_mem (files : List PyFile) (x : String) :
    x ∈ (build_dependency_graph files).nodes ↔
      ∃ f ∈ files, x = f.path ∨ ∃ m ∈ f.imports,
        resolve_import_to_file (files.map (fun fl => fl.path)) m = some x := by
  simp only [build_dependency_graph]
  rw [build_loop_nodes_mem]
  simp

/-- Edge membership in the built graph: one edge per resolvable import,
from the importing file to the imported file. -/
theorem build_edges_mem (files : List PyFile) (e : String × String) :
    e ∈ (build_dependency_graph files).edges ↔
      ∃ f ∈ files, ∃ m ∈ f.imports, ∃ p,
        resolve_import_to_file (files.map (fun fl => fl.path)) m = some p ∧
          e = (f.path, p) := by
  simp only [build_dependency_graph]
  rw [build_loop_edges_mem]
  simp

/-- Scanning the same workspace in any order produces the same node set. -/
theorem build_graph_nodes_perm {files₁ files₂ : List PyFile}
    (h : files₁.Perm files₂) :
    (build_dependency_graph files₁).nodes.Perm
      (build_dependency_graph files₂).nodes := by
  rw [List.perm_ext_iff_of_nodup (build_nodes_nodup files₁)
    (build_nodes_nodup files₂)]
  intro x
  rw [build_nodes_mem, build_nodes_mem]
  have hap := h.map (fun fl => fl.path)
  constructor
  · rintro ⟨f, hf, hx⟩
    refine ⟨f, h.mem_iff.mp hf, ?_⟩
    rcases hx with rfl | ⟨m, hm, hr⟩
    · exact Or.inl rfl
    · refine Or.inr ⟨m, hm, ?_⟩
      rw [← resolve_import_perm hap]
      exact hr
  · rintro ⟨f, hf, hx⟩
    refine ⟨f, h.mem_iff.mpr hf, ?_⟩
    rcases hx with rfl | ⟨m, hm, hr⟩
    · exact Or.inl rfl
    · refine Or.inr ⟨m, hm, ?_⟩
      rw [resolve_import_perm hap]
      exact hr

/-- Scanning the same workspace in any order produces the same edge set. -/
theorem build_graph_edges_perm {files₁ files₂ : List PyFile}
    (h : files₁.Perm files₂) :
    (build_dependency_graph files₁).edges.Perm
      (build_dependency_graph files₂).edges := by
  rw [List.perm_ext_iff_of_nodup (build_edges_nodup files₁)
    (build_edges_nodup files₂)]
  intro e
  rw [build_edges_mem, build_edges_mem]
  have hap := h.map (fun fl => fl.path)
  constructor
  · rintro ⟨f, hf, m, hm, p, hr, rfl⟩
    refine ⟨f, h.mem_iff.mp hf, m, hm, p, ?_, rfl⟩
    rw [← resolve_import_perm hap]
    exact hr
  · rintro ⟨f, hf, m, hm, p, hr, rfl⟩
    refine ⟨f, h.mem_iff.mpr hf, m, hm, p, ?_, rfl⟩
    rw [resolve_import_perm hap]
    exact hr

/-- `_find_impacted_files` only depends on the node and edge sets of the
graph. -/
theorem find_impacted_files_perm {g₁ g₂ : DiGraph} (hn : g₁.nodes.Perm g₂.nodes)
    (he : g₁.edges.Perm g₂.edges) (f : String) :
    SpeedAnalyzer.find_impacted_files g₁ f
      = SpeedAnalyzer.find_impacted_files g₂ f := by
  simp only [SpeedAnalyzer.find_impacted_files]
  by_cases hf : f ∈ g₁.nodes
  · rw [if_pos hf, if_pos (hn.mem_iff.mp hf),
      insertionSort_stringLe_perm_eq (descendants_perm hn he f)]
  · rw [if_neg hf, if_neg (fun hc => hf (hn.mem_iff.mpr hc))]

/-- Claim C9: the fast analyzer is deterministic and idempotent on a
fixed workspace — its entire result, including the `impactedFiles`
ordering, is invariant under the order in which the workspace scan
enumerates the files, the only effectful input of the analysis. -/
theorem speed_analyze_scan_order_irrelevant (files₁ files₂ : List PyFile)
    (changed_file : String) (h : files₁.Perm files₂) :
    SpeedAnalyzer.analyze (Except.ok files₁) changed_file
      = SpeedAnalyzer.analyze (Except.ok files₂) changed_file := by
  simp only [SpeedAnalyzer.analyze]
  rw [find_impacted_files_perm (build_graph_nodes_perm h)
    (build_graph_edges_perm h) changed_file]

/-- Witness for C9: the Scenario-A workspace scanned in two different
orders yields identical analysis results. -/
theorem speed_analyze_scan_order_irrelevant_witness :
    SpeedAnalyzer.analyze (Except.ok scenario_a) "c.py"
      = SpeedAnalyzer.analyze (Except.ok scenario_a_perm) "c.py" :=
  speed_analyze_scan_order_irrelevant scenario_a scenario_a_perm "c.py" (by decide)
